import Mathlib

/-!
Shallow embedding of the `myplainkv` package (a MySQL-backed key-value store).

The backing `KeyValueTBL` table is modelled as an association list of rows
`((Bucket, KeyID), Value)`; the SQL statements issued by the package are given
their relational semantics on that list, including parameter binding: the
upsert statement carries four placeholders but the source binds only three
arguments, so (as `database/sql` specifies) every execution of it fails with
an argument-count error and writes nothing.  Go strings and byte slices are
modelled as Lean `String`s, with Go's `len` being the UTF-8 byte size.
Go's `(value, error)` multiple returns become products with an `Option GoErr`
error component, and a runtime nil-pointer dereference (a Go panic) is made
visible as the distinguished error `GoErr.panicNilPointer`.
-/

/-- Byte length of a Go string or byte slice (Go `len`). -/
def goLen (s : String) : Nat := s.utf8ByteSize

/-- Rows of the backing `KeyValueTBL`: `((Bucket, KeyID), Value)` with primary
key `(Bucket, KeyID)`. -/
abbrev Table := List ((String × String) × String)

/-- Semantics of `SELECT Value FROM KeyValueTBL WHERE Bucket=? AND KeyID=?`. -/
def lookupT : Table → String → String → Option String
  | [], _, _ => none
  | ((b, k), v) :: t, b', k' => if b = b' ∧ k = k' then some v else lookupT t b' k'

/-- Semantics of `DELETE FROM KeyValueTBL WHERE Bucket = ? AND KeyID = ?`. -/
def deleteT : Table → String → String → Table
  | [], _, _ => []
  | ((b', k'), v') :: t, b, k =>
    if b' = b ∧ k' = k then deleteT t b k
    else ((b', k'), v') :: deleteT t b k

/-- Decimal digit character, `'0'` to `'9'`. -/
def digitChar (d : Nat) : Char := Char.ofNat (48 + d)

/-- Whether a character is a decimal digit. -/
def isDigitCh (c : Char) : Bool := 48 ≤ c.toNat && c.toNat ≤ 57

/-- Numeric value of a decimal digit character. -/
def digitVal (c : Char) : Nat := c.toNat - 48

/-- Decimal digit expansion of a natural number, most significant digit first.
Fuel-based structural recursion so that the kernel can evaluate it; the fuel
`n + 1` always suffices since the argument shrinks by a factor of ten. -/
def natDigsAux : Nat → Nat → List Char → List Char
  | 0, _, acc => acc
  | fuel + 1, n, acc =>
    if n < 10 then digitChar n :: acc
    else natDigsAux fuel (n / 10) (digitChar (n % 10) :: acc)

/-- Decimal digit list of a natural number. -/
def natDigs (n : Nat) : List Char := natDigsAux (n + 1) n []

/-- Model of Go `strconv.Itoa`: canonical base-10 representation, with a
leading `'-'` for negative numbers. -/
def goItoa (i : Int) : String :=
  if i < 0 then ⟨'-' :: natDigs i.natAbs⟩ else ⟨natDigs i.natAbs⟩

/-- Parse an all-digit, non-empty character list as a natural number. -/
def parseDigits (cs : List Char) : Option Nat :=
  if cs.isEmpty then none
  else if cs.all isDigitCh then
    some (cs.foldl (fun a c => 10 * a + digitVal c) 0)
  else none

/-- Largest value of Go's 64-bit `int`. -/
def int64Max : Int := 9223372036854775807

/-- Smallest value of Go's 64-bit `int`. -/
def int64Min : Int := -9223372036854775808

/-- Model of Go `strconv.Atoi` with the error result dropped, exactly as the
source drops it (`tvv, _ := strconv.Atoi(tv)`): on a syntax error the
returned integer is `0`, and on a range error it is the value clamped to the
64-bit `int` range, as `strconv.ParseInt` returns it. -/
def goAtoi (s : String) : Int :=
  match s.data with
  | [] => 0
  | c :: cs =>
    if c = '-' then
      (match parseDigits cs with
       | some n => if int64Min ≤ -(n : Int) then -(n : Int) else int64Min
       | none => 0)
    else if c = '+' then
      (match parseDigits cs with
       | some n => if (n : Int) ≤ int64Max then (n : Int) else int64Max
       | none => 0)
    else
      (match parseDigits (c :: cs) with
       | some n => if (n : Int) ≤ int64Max then (n : Int) else int64Max
       | none => 0)

/-- MySQL `LIKE` matching over character lists: `'%'` matches any sequence,
`'_'` matches any single character, and a backslash escapes the following
character (a lone trailing backslash is taken literally).  Fuel-based so the
kernel can evaluate it; `likeMatch` supplies sufficient fuel, as every
recursive call shrinks the combined length of the two lists. -/
def likeAux : Nat → List Char → List Char → Bool
  | 0, _, _ => false
  | fuel + 1, ps, s =>
    match ps with
    | [] => s.isEmpty
    | pc :: ps' =>
      if pc = '%' then
        likeAux fuel ps' s ||
          (match s with
           | [] => false
           | _ :: s' => likeAux fuel (pc :: ps') s')
      else if pc = '\\' then
        match ps' with
        | [] =>
          (match s with
           | [] => false
           | c :: s' => (c == '\\') && likeAux fuel [] s')
        | ec :: ps'' =>
          (match s with
           | [] => false
           | c :: s' => (c == ec) && likeAux fuel ps'' s')
      else if pc = '_' then
        (match s with
         | [] => false
         | _ :: s' => likeAux fuel ps' s')
      else
        (match s with
         | [] => false
         | c :: s' => (c == pc) && likeAux fuel ps' s')

/-- MySQL `LIKE` on whole patterns and subjects. -/
def likeMatch (p s : List Char) : Bool := likeAux (p.length + s.length + 1) p s

/-- Errors surfaced by the package: its three exported validation errors, the
`database/sql` sentinel `ErrTxDone` (returned when committing or rolling back
an already-finished transaction), the `database/sql` argument-count error
(`sql: expected 4 arguments, got 3`) raised by every execution of the
malformed upsert statement, and a marker for a Go nil-pointer panic. -/
inductive GoErr where
  | errBucketIdTooLong
  | errKeyTooLong
  | errValueTooLong
  | errTxDone
  | errArgCountMismatch
  | panicNilPointer
deriving DecidableEq, Repr

/-- A `database/sql` transaction handle: the table as seen (and written)
inside the transaction, and whether the transaction has already finished. -/
structure Tx where
  view : Table
  done : Bool
deriving DecidableEq, Repr

/-- The `MyPlainKV` handle together with the backing database it talks to.
`dbOpen` is `p.db != nil`, `tx` is `p.tx` (`none` = nil), and `committed` is
the durable contents of `KeyValueTBL`, which persist across `Close`/`Open`. -/
structure KV where
  dbOpen : Bool
  committed : Table
  tx : Option Tx
  currBuckt : String
  inTransaction : Bool
  autoClose : Bool
deriving DecidableEq, Repr

/-- The reserved bucket of the mime side-channel. -/
def mimeBuckt : String := "--mime--"

/-- `fmt.Sprintf` of the reserved tally key format `_______#tally-%s`. -/
def tallyKeyFor (key : String) : String := "_______#tally-" ++ key

/-- `NewMyPlainKV`: fresh handle on a database whose table currently holds
`initial`; no connection open, current bucket `"default"`. -/
def NewMyPlainKV (initial : Table) (autoClose : Bool) : KV :=
  { dbOpen := false, committed := initial, tx := none,
    currBuckt := "default", inTransaction := false, autoClose := autoClose }

/-- `Close`: drops the transaction handle and the connection (always succeeds
in the model; the durable table survives).  `inTransaction` is left as-is,
just as the source never touches it in `Close`. -/
def KV.Close (s : KV) : KV := { s with tx := none, dbOpen := false }

/-- `Open`: no-op when a connection exists; otherwise clears `inTransaction`
and opens a connection (the table already exists or is created, which leaves
`committed` as it is).  A well-formed DSN and reachable backend are assumed,
so `Open` never fails in the model. -/
def KV.Open (s : KV) : KV :=
  if s.dbOpen then s else { s with inTransaction := false, dbOpen := true }

/-- Applies the deferred `p.Close()` that `autoClose` installs around each
operation. -/
def KV.finOp (s : KV) : KV := if s.autoClose then s.Close else s

/-- Routing of a read: against `p.tx` when `inTransaction`, else against
`p.db`.  Reading through a nil `tx` is a Go panic; reading through a finished
transaction yields `sql.ErrTxDone`. -/
def KV.readTbl (s : KV) : Except GoErr Table :=
  if s.inTransaction then
    match s.tx with
    | none => .error .panicNilPointer
    | some t => if t.done then .error .errTxDone else .ok t.view
  else .ok s.committed

/-- Routing of a write (`Exec`): against the transaction view when
`inTransaction`, else against the durable table. -/
def KV.execWrite (s : KV) (f : Table → Table) : Option GoErr × KV :=
  if s.inTransaction then
    match s.tx with
    | none => (some .panicNilPointer, s)
    | some t =>
      if t.done then (some .errTxDone, s)
      else (none, { s with tx := some { t with view := f t.view } })
  else (none, { s with committed := f s.committed })

/-- Internal `get`: open, empty bucket defaults to `"default"`, single-row
select with `sql.ErrNoRows` swallowed into an empty value. -/
def KV.get (s : KV) (bucket key : String) : String × Option GoErr × KV :=
  let s1 := s.Open
  let b := if bucket = "" then "default" else bucket
  match s1.readTbl with
  | .error e => ("", some e, s1.finOp)
  | .ok tbl => ((lookupT tbl b key).getD "", none, s1.finOp)

/-- The `Exec` of the malformed upsert statement.  The statement text has
four parameter placeholders (`INSERT INTO KeyValueTBL VALUES (?, ?, ?) ON
DUPLICATE KEY UPDATE Value=?;`) but the source supplies only three arguments
(bucket, key, value), so `database/sql` rejects every execution with
`sql: expected 4 arguments, got 3` before the backend performs any write.
Routing is still observed first: `p.tx.Exec` on a nil transaction is a Go
panic, and on a finished transaction returns `sql.ErrTxDone`. -/
def KV.execArity (s : KV) : Option GoErr :=
  if s.inTransaction then
    match s.tx with
    | none => some .panicNilPointer
    | some t => if t.done then some .errTxDone else some .errArgCountMismatch
  else some .errArgCountMismatch

/-- Internal `set`: open, validate the three size limits, then execute the
upsert statement, which always fails with the argument-count error (three
arguments bound to four placeholders) and never writes. -/
def KV.set (s : KV) (bucket key value : String) : Option GoErr × KV :=
  let s1 := s.Open
  if goLen bucket > 50 then (some .errBucketIdTooLong, s1.finOp)
  else if goLen key > 300 then (some .errKeyTooLong, s1.finOp)
  else if goLen value > 16777215 then (some .errValueTooLong, s1.finOp)
  else (s1.execArity, s1.finOp)

/-- `Get`: read `(p.currBuckt, key)`. -/
def KV.Get (s : KV) (key : String) : String × Option GoErr × KV :=
  s.get s.currBuckt key

/-- `GetMime`: read `(mimeBuckt, key)`, defaulting to `"text/html"` on error
or absence. -/
def KV.GetMime (s : KV) (key : String) : String × Option GoErr × KV :=
  match s.get mimeBuckt key with
  | (_, some e, s') => ("text/html", some e, s')
  | (val, none, s') => (if val = "" then "text/html" else val, none, s')

/-- `Set`: normalize an empty current bucket to `"default"` in the handle,
then `set` under the current bucket. -/
def KV.Set (s : KV) (key value : String) : Option GoErr × KV :=
  let s1 := if s.currBuckt = "" then { s with currBuckt := "default" } else s
  s1.set s1.currBuckt key value

/-- `SetMime`: `set` under the reserved mime bucket. -/
def KV.SetMime (s : KV) (key mime : String) : Option GoErr × KV :=
  s.set mimeBuckt key mime

/-- `SetBucket`: pure session-state mutation. -/
def KV.SetBucket (s : KV) (bucket : String) : KV := { s with currBuckt := bucket }

/-- `Del`: open, normalize an empty current bucket in the handle, then delete
the data row and the mime row, stopping on the first error. -/
def KV.Del (s : KV) (key : String) : Option GoErr × KV :=
  let s1 := s.Open
  let s2 := if s1.currBuckt = "" then { s1 with currBuckt := "default" } else s1
  match s2.execWrite (fun t => deleteT t s2.currBuckt key) with
  | (some e, s3) => (some e, s3.finOp)
  | (none, s3) =>
    match s3.execWrite (fun t => deleteT t mimeBuckt key) with
    | (some e, s4) => (some e, s4.finOp)
    | (none, s4) => (none, s4.finOp)

/-- `ListKeys`: open, normalize an empty current bucket in the handle, then
`SELECT KeyID ... WHERE Bucket=? AND KeyID LIKE ?` with the raw pattern
suffixed by `"%"` (no escaping of `LIKE` metacharacters). -/
def KV.ListKeys (s : KV) (pat : String) : List String × Option GoErr × KV :=
  let s1 := s.Open
  let s2 := if s1.currBuckt = "" then { s1 with currBuckt := "default" } else s1
  match s2.readTbl with
  | .error e => ([], some e, s2.finOp)
  | .ok tbl =>
    ((tbl.filter
        (fun r => (r.1.1 == s2.currBuckt) && likeMatch (pat ++ "%").data r.1.2.data)).map
      (fun r => r.1.2),
     none, s2.finOp)

/-- `Tally`: read the tally record under the *raw* current bucket; when the
read-back value is empty, initialize it to `Itoa(offset)` (again under the raw
current bucket), and in every successful case return `Atoi` of the value that
was read, errors dropped. -/
def KV.Tally (s : KV) (key : String) (offset : Int) : Int × Option GoErr × KV :=
  let tk := tallyKeyFor key
  match s.get s.currBuckt tk with
  | (_, some e, s1) => (-1, some e, s1)
  | (tlly, none, s1) =>
    if tlly = "" then
      match s1.set s1.currBuckt tk (goItoa offset) with
      | (some e, s2) => (-1, some e, s2)
      | (none, s2) => (goAtoi tlly, none, s2)
    else (goAtoi tlly, none, s1)

/-- `TallyIncr`: `Tally(key, 0)` then write back the value plus one. -/
def KV.TallyIncr (s : KV) (key : String) : Int × Option GoErr × KV :=
  match s.Tally key 0 with
  | (tlly, some e, s1) => (tlly, some e, s1)
  | (tlly, none, s1) =>
    match s1.set s1.currBuckt (tallyKeyFor key) (goItoa (tlly + 1)) with
    | (some e, s2) => (tlly, some e, s2)
    | (none, s2) => (tlly + 1, none, s2)

/-- `TallyDecr`: `Tally(key, 0)` then write back the value minus one. -/
def KV.TallyDecr (s : KV) (key : String) : Int × Option GoErr × KV :=
  match s.Tally key 0 with
  | (tlly, some e, s1) => (tlly, some e, s1)
  | (tlly, none, s1) =>
    match s1.set s1.currBuckt (tallyKeyFor key) (goItoa (tlly - 1)) with
    | (some e, s2) => (tlly, some e, s2)
    | (none, s2) => (tlly - 1, none, s2)

/-- `TallyReset`: write the literal `"0"` under the raw current bucket. -/
def KV.TallyReset (s : KV) (key : String) : Option GoErr × KV :=
  s.set s.currBuckt (tallyKeyFor key) "0"

/-- `Begin`: `p.db.Begin()` with `p.db` nil is a Go nil-pointer panic; with a
connection open it snapshots the durable table into a fresh live transaction
and sets the in-transaction flag. -/
def KV.Begin (s : KV) : Option GoErr × KV :=
  if s.dbOpen then
    (none, { s with tx := some { view := s.committed, done := false },
                    inTransaction := true })
  else (some .panicNilPointer, s)

/-- `Commit`: silently succeeds only when `p.tx` is nil; committing a finished
transaction returns `sql.ErrTxDone` and leaves the flag untouched; committing
a live transaction publishes its view, marks it done and clears the flag. -/
def KV.Commit (s : KV) : Option GoErr × KV :=
  match s.tx with
  | none => (none, s)
  | some t =>
    if t.done then (some .errTxDone, s)
    else (none, { s with committed := t.view, tx := some { t with done := true },
                         inTransaction := false })

/-- `Rollback`: silently succeeds only when `p.tx` is nil; rolling back a
finished transaction returns `sql.ErrTxDone`; rolling back a live transaction
discards its view, marks it done and clears the flag. -/
def KV.Rollback (s : KV) : Option GoErr × KV :=
  match s.tx with
  | none => (none, s)
  | some t =>
    if t.done then (some .errTxDone, s)
    else (none, { s with tx := some { t with done := true },
                         inTransaction := false })

/-! ## Derived notions used in the statements -/

/-- Bucket normalization applied by the read half of every operation and by
the handle-mutating writes: empty means `"default"`. -/
def normB (b : String) : String := if b = "" then "default" else b

/-- The table an operation on the handle effectively reads and writes:
the transaction view while in a transaction, the durable table otherwise. -/
def KV.effTbl (s : KV) : Table :=
  if s.inTransaction then
    (match s.tx with
     | some t => t.view
     | none => [])
  else s.committed

/-- Well-formed handle states: whenever the in-transaction flag is set, the
connection is open, auto-close is off (an auto-closing handle would destroy
its own transaction after one operation), and the transaction handle is a
live one.  Every state reached by normal sequential use satisfies this. -/
def KV.WF (s : KV) : Prop :=
  s.inTransaction = true →
    s.dbOpen = true ∧ s.autoClose = false ∧
      ∃ v, s.tx = some { view := v, done := false }

/-! ## Table lemmas -/

theorem lookupT_deleteT_self (t : Table) (b k : String) :
    lookupT (deleteT t b k) b k = none := by
  induction t with
  | nil => simp [deleteT, lookupT]
  | cons r t ih =>
    obtain ⟨⟨b0, k0⟩, v0⟩ := r
    by_cases h0 : b0 = b ∧ k0 = k
    · simp [deleteT, h0, ih]
    · simp [deleteT, lookupT, h0, ih]

theorem lookupT_deleteT_ne (t : Table) (b k b' k' : String)
    (h : ¬(b = b' ∧ k = k')) :
    lookupT (deleteT t b k) b' k' = lookupT t b' k' := by
  induction t with
  | nil => simp [deleteT]
  | cons r t ih =>
    obtain ⟨⟨b0, k0⟩, v0⟩ := r
    by_cases h0 : b0 = b ∧ k0 = k
    · have hne : ¬(b0 = b' ∧ k0 = k') := by
        rintro ⟨rfl, rfl⟩; exact h ⟨h0.1.symm, h0.2.symm⟩
      rw [deleteT]
      simp only [if_pos h0]
      rw [ih, lookupT]
      simp [hne]
    · rw [deleteT]
      simp only [if_neg h0]
      rw [lookupT, lookupT]
      by_cases h1 : b0 = b' ∧ k0 = k'
      · simp [h1]
      · simp [h1, ih]

/-! ## Decimal string lemmas (round trip of the tally encoding) -/

theorem natDigsAux_append (fuel : Nat) : ∀ (n : Nat) (acc : List Char),
    natDigsAux fuel n acc = natDigsAux fuel n [] ++ acc := by
  induction fuel with
  | zero => intro n acc; simp [natDigsAux]
  | succ f ih =>
    intro n acc
    by_cases h : n < 10
    · simp [natDigsAux, h]
    · simp only [natDigsAux, if_neg h]
      rw [ih (n / 10) (digitChar (n % 10) :: acc),
        ih (n / 10) [digitChar (n % 10)]]
      simp

theorem natDigsAux_fuel (f1 : Nat) : ∀ (f2 n : Nat), n < f1 → n < f2 →
    natDigsAux f1 n [] = natDigsAux f2 n [] := by
  induction f1 with
  | zero => intro f2 n h1 _; omega
  | succ f ih =>
    intro f2 n h1 h2
    cases f2 with
    | zero => omega
    | succ g =>
      by_cases h : n < 10
      · simp [natDigsAux, h]
      · have hd : n / 10 < n := Nat.div_lt_self (by omega) (by omega)
        simp only [natDigsAux, if_neg h]
        rw [natDigsAux_append f, natDigsAux_append g]
        rw [ih g (n / 10) (by omega) (by omega)]

theorem natDigs_eq (n : Nat) :
    natDigs n =
      if n < 10 then [digitChar n]
      else natDigs (n / 10) ++ [digitChar (n % 10)] := by
  by_cases h : n < 10
  · simp [natDigs, natDigsAux, h]
  · have hd : n / 10 < n := Nat.div_lt_self (by omega) (by omega)
    rw [if_neg h]
    conv_lhs => rw [natDigs]
    simp only [natDigsAux, if_neg h]
    rw [natDigsAux_append n (n / 10) [digitChar (n % 10)]]
    simp only [natDigs]
    rw [natDigsAux_fuel n (n / 10 + 1) (n / 10) (by omega) (by omega)]

theorem isDigitCh_digitChar (d : Nat) (h : d < 10) :
    isDigitCh (digitChar d) = true := by
  interval_cases d <;> decide

theorem digitVal_digitChar (d : Nat) (h : d < 10) :
    digitVal (digitChar d) = d := by
  interval_cases d <;> decide

theorem natDigs_ne_nil (n : Nat) : natDigs n ≠ [] := by
  rw [natDigs_eq]
  by_cases h : n < 10 <;> simp [h]

theorem natDigs_all_digits (n : Nat) : (natDigs n).all isDigitCh = true := by
  induction n using Nat.strong_induction_on with
  | _ n ih =>
    rw [natDigs_eq]
    by_cases h : n < 10
    · simp [h, isDigitCh_digitChar n h]
    · have hd : n / 10 < n := Nat.div_lt_self (by omega) (by omega)
      simp only [if_neg h, List.all_append, Bool.and_eq_true]
      refine ⟨ih (n / 10) hd, ?_⟩
      simp [isDigitCh_digitChar (n % 10) (Nat.mod_lt _ (by omega))]

theorem digsVal_natDigs (n : Nat) :
    (natDigs n).foldl (fun a c => 10 * a + digitVal c) 0 = n := by
  induction n using Nat.strong_induction_on with
  | _ n ih =>
    rw [natDigs_eq]
    by_cases h : n < 10
    · simp [h, digitVal_digitChar n h]
    · have hd : n / 10 < n := Nat.div_lt_self (by omega) (by omega)
      simp only [if_neg h, List.foldl_append, ih (n / 10) hd, List.foldl]
      rw [digitVal_digitChar (n % 10) (Nat.mod_lt _ (by omega))]
      omega

theorem parseDigits_natDigs (n : Nat) : parseDigits (natDigs n) = some n := by
  rw [parseDigits]
  rw [if_neg (by simp [List.isEmpty_iff, natDigs_ne_nil n])]
  rw [if_pos (natDigs_all_digits n)]
  rw [digsVal_natDigs n]

theorem isDigitCh_ne_sign (c : Char) (h : isDigitCh c = true) :
    c ≠ '-' ∧ c ≠ '+' := by
  constructor <;> rintro rfl <;> simp [isDigitCh] at h

theorem goAtoi_goItoa (i : Int) (hlo : int64Min ≤ i) (hhi : i ≤ int64Max) :
    goAtoi (goItoa i) = i := by
  by_cases h : i < 0
  · have habs : -((i.natAbs : Nat) : Int) = i := by omega
    have hv : goAtoi (goItoa i) =
        (if int64Min ≤ -((i.natAbs : Nat) : Int) then -((i.natAbs : Nat) : Int)
         else int64Min) := by
      simp [goItoa, if_pos h, goAtoi, parseDigits_natDigs]
    rw [hv, habs, if_pos hlo]
  · obtain ⟨c, cs, hcs⟩ : ∃ c cs, natDigs i.natAbs = c :: cs := by
      cases hh : natDigs i.natAbs with
      | nil => exact absurd hh (natDigs_ne_nil _)
      | cons c cs => exact ⟨c, cs, rfl⟩
    have hdig : isDigitCh c = true := by
      have hall := natDigs_all_digits i.natAbs
      rw [hcs] at hall
      simp only [List.all_cons, Bool.and_eq_true] at hall
      exact hall.1
    obtain ⟨hm, hp⟩ := isDigitCh_ne_sign c hdig
    have habs : ((i.natAbs : Nat) : Int) = i := by omega
    have hv : goAtoi (goItoa i) =
        (if ((i.natAbs : Nat) : Int) ≤ int64Max then ((i.natAbs : Nat) : Int)
         else int64Max) := by
      simp only [goItoa, if_neg h, goAtoi, hcs]
      rw [if_neg hm, if_neg hp, ← hcs, parseDigits_natDigs i.natAbs]
    rw [hv, habs, if_pos hhi]

theorem goItoa_ne_empty (i : Int) : goItoa i ≠ "" := by
  intro h
  have hd := congrArg String.data h
  by_cases hi : i < 0
  · simp only [goItoa, if_pos hi] at hd
    exact absurd hd (by simp)
  · simp only [goItoa, if_neg hi] at hd
    exact natDigs_ne_nil _ hd

/-! ## LIKE matching lemmas -/

theorem likeAux_percent_nil (fuel : Nat) : ∀ s : List Char,
    s.length + 2 ≤ fuel → likeAux fuel ['%'] s = true := by
  induction fuel with
  | zero => intro s hs; omega
  | succ f ih =>
    intro s hs
    cases s with
    | nil =>
      obtain ⟨g, rfl⟩ : ∃ g, f = g + 1 := ⟨f - 1, by omega⟩
      simp [likeAux, List.isEmpty]
    | cons c s' =>
      have h1 : likeAux f ['%'] s' = true := ih s' (by simp at hs ⊢; omega)
      simp [likeAux, h1]

theorem likeAux_clean_cons (fuel : Nat) (pc : Char) (ps s : List Char)
    (h1 : pc ≠ '%') (h2 : pc ≠ '\\') (h3 : pc ≠ '_') :
    likeAux (fuel + 1) (pc :: ps) s =
      (match s with
       | [] => false
       | c :: s' => (c == pc) && likeAux fuel ps s') := by
  simp only [likeAux, if_neg h1, if_neg h2, if_neg h3]

theorem likeAux_clean (p : List Char) :
    ∀ (s : List Char) (fuel : Nat),
      (∀ c ∈ p, c ≠ '%' ∧ c ≠ '_' ∧ c ≠ '\\') →
      p.length + s.length + 2 ≤ fuel →
      likeAux fuel (p ++ ['%']) s = p.isPrefixOf s := by
  induction p with
  | nil =>
    intro s fuel _ hf
    simp only [List.nil_append, List.isPrefixOf_nil_left]
    exact likeAux_percent_nil fuel s (by simpa using hf)
  | cons pc p' ih =>
    intro s fuel hclean hf
    obtain ⟨f, rfl⟩ : ∃ f, fuel = f + 1 := ⟨fuel - 1, by omega⟩
    obtain ⟨h1, h3, h2⟩ := hclean pc (by simp)
    rw [List.cons_append, likeAux_clean_cons f pc (p' ++ ['%']) s h1 h2 h3]
    cases s with
    | nil => simp
    | cons c s' =>
      show (c == pc && likeAux f (p' ++ ['%']) s') = (pc :: p').isPrefixOf (c :: s')
      rw [ih s' f (fun d hd => hclean d (by simp [hd])) (by simp at hf ⊢; omega)]
      simp only [List.isPrefixOf_cons₂]
      by_cases hc : c = pc
      · subst hc; rfl
      · have hb1 : (c == pc) = false := beq_eq_false_iff_ne.mpr hc
        have hb2 : (pc == c) = false := beq_eq_false_iff_ne.mpr (Ne.symm hc)
        rw [hb1, hb2]

theorem likeMatch_clean (p s : List Char)
    (hclean : ∀ c ∈ p, c ≠ '%' ∧ c ≠ '_' ∧ c ≠ '\\') :
    likeMatch (p ++ ['%']) s = p.isPrefixOf s := by
  rw [likeMatch]
  exact likeAux_clean p s _ hclean (by simp; omega)

/-! ## State characterization of the primitive operations -/

theorem postOp_committed (s : KV) : ((s.Open).finOp).committed = s.committed := by
  simp only [KV.Open, KV.finOp, KV.Close]
  by_cases hdb : s.dbOpen <;> by_cases hac : s.autoClose <;> simp [hdb, hac]

theorem postOp_currBuckt (s : KV) : ((s.Open).finOp).currBuckt = s.currBuckt := by
  simp only [KV.Open, KV.finOp, KV.Close]
  by_cases hdb : s.dbOpen <;> by_cases hac : s.autoClose <;> simp [hdb, hac]

theorem postOp_autoClose (s : KV) : ((s.Open).finOp).autoClose = s.autoClose := by
  simp only [KV.Open, KV.finOp, KV.Close]
  by_cases hdb : s.dbOpen <;> by_cases hac : s.autoClose <;> simp [hdb, hac]

theorem postOp_inTx_id (s : KV) (h : s.WF) (hin : s.inTransaction = true) :
    (s.Open).finOp = s := by
  obtain ⟨hdb, hac, v, htx⟩ := h hin
  simp [KV.Open, KV.finOp, hdb, hac]

theorem postOp_inTransaction (s : KV) (h : s.WF) :
    ((s.Open).finOp).inTransaction = s.inTransaction := by
  by_cases hin : s.inTransaction
  · rw [postOp_inTx_id s h hin]
  · have hin' : s.inTransaction = false := by simpa using hin
    simp only [KV.Open, KV.finOp, KV.Close]
    by_cases hdb : s.dbOpen <;> by_cases hac : s.autoClose <;> simp [hdb, hac, hin']

theorem postOp_effTbl (s : KV) (h : s.WF) : ((s.Open).finOp).effTbl = s.effTbl := by
  by_cases hin : s.inTransaction
  · rw [postOp_inTx_id s h hin]
  · have hin' : s.inTransaction = false := by simpa using hin
    simp only [KV.Open, KV.finOp, KV.Close, KV.effTbl]
    by_cases hdb : s.dbOpen <;> by_cases hac : s.autoClose <;> simp [hdb, hac, hin']

theorem postOp_WF (s : KV) (h : s.WF) : ((s.Open).finOp).WF := by
  by_cases hin : s.inTransaction
  · rw [postOp_inTx_id s h hin]; exact h
  · have hin' : s.inTransaction = false := by simpa using hin
    simp only [KV.Open, KV.finOp, KV.Close, KV.WF]
    by_cases hdb : s.dbOpen <;> by_cases hac : s.autoClose <;> simp [hdb, hac, hin']

theorem readTbl_open (s : KV) (h : s.WF) :
    (s.Open).readTbl = .ok s.effTbl := by
  by_cases hin : s.inTransaction
  · obtain ⟨hdb, hac, v, htx⟩ := h hin
    simp [KV.Open, hdb, KV.readTbl, hin, htx, KV.effTbl]
  · have hin' : s.inTransaction = false := by simpa using hin
    simp only [KV.Open, KV.readTbl, KV.effTbl, hin']
    by_cases hdb : s.dbOpen <;> simp [hdb, hin']

theorem get_eq (s : KV) (h : s.WF) (b k : String) :
    s.get b k = ((lookupT s.effTbl (normB b) k).getD "", none, (s.Open).finOp) := by
  simp only [KV.get, readTbl_open s h, normB]

theorem set_errB (s : KV) (b k v : String) (hb : goLen b > 50) :
    s.set b k v = (some .errBucketIdTooLong, (s.Open).finOp) := by
  simp [KV.set, hb]

theorem set_errK (s : KV) (b k v : String) (hb : ¬goLen b > 50)
    (hk : goLen k > 300) :
    s.set b k v = (some .errKeyTooLong, (s.Open).finOp) := by
  simp [KV.set, hb, hk]

theorem set_errV (s : KV) (b k v : String) (hb : ¬goLen b > 50)
    (hk : ¬goLen k > 300) (hv : goLen v > 16777215) :
    s.set b k v = (some .errValueTooLong, (s.Open).finOp) := by
  simp [KV.set, hb, hk, hv]

theorem set_state (s : KV) (b k v : String) :
    (s.set b k v).2 = (s.Open).finOp := by
  by_cases hb : goLen b > 50 <;> by_cases hk : goLen k > 300 <;>
    by_cases hv : goLen v > 16777215 <;> simp [KV.set, hb, hk, hv]

theorem execArity_open (s : KV) (h : s.WF) :
    (s.Open).execArity = some .errArgCountMismatch := by
  by_cases hin : s.inTransaction
  · obtain ⟨hdb, hac, v, htx⟩ := h hin
    simp [KV.Open, hdb, KV.execArity, hin, htx]
  · have hin' : s.inTransaction = false := by simpa using hin
    simp only [KV.execArity, KV.Open, hin']
    by_cases hdb : s.dbOpen <;> simp [hdb, hin']

theorem set_errArity (s : KV) (h : s.WF) (b k v : String)
    (hb : goLen b ≤ 50) (hk : goLen k ≤ 300) (hv : goLen v ≤ 16777215) :
    s.set b k v = (some .errArgCountMismatch, (s.Open).finOp) := by
  simp only [KV.set, if_neg (by omega : ¬goLen b > 50),
    if_neg (by omega : ¬goLen k > 300), if_neg (by omega : ¬goLen v > 16777215)]
  rw [execArity_open s h]

theorem del_spec (s : KV) (h : s.WF) (k : String) :
    (s.Del k).1 = none ∧
    (s.Del k).2.effTbl = deleteT (deleteT s.effTbl (normB s.currBuckt) k) mimeBuckt k ∧
    (s.Del k).2.committed =
      (if s.inTransaction = true then s.committed
       else deleteT (deleteT s.committed (normB s.currBuckt) k) mimeBuckt k) ∧
    (s.Del k).2.currBuckt = normB s.currBuckt ∧
    (s.Del k).2.inTransaction = s.inTransaction ∧
    (s.Del k).2.autoClose = s.autoClose ∧
    (s.Del k).2.WF := by
  by_cases hin : s.inTransaction
  · obtain ⟨hdb, hac, w, htx⟩ := h hin
    by_cases hcb : s.currBuckt = "" <;>
      simp [KV.Del, KV.Open, hdb, KV.execWrite, hin, htx, KV.finOp, hac,
        KV.effTbl, KV.WF, normB, hcb]
  · have hin' : s.inTransaction = false := by simpa using hin
    by_cases hcb : s.currBuckt = "" <;> by_cases hdb : s.dbOpen <;>
      by_cases hac : s.autoClose <;>
      simp [KV.Del, KV.Open, hdb, KV.execWrite, hin', KV.finOp, hac,
        KV.effTbl, KV.WF, normB, hcb, KV.Close]

theorem listKeys_spec (s : KV) (h : s.WF) (pat : String) :
    (s.ListKeys pat).1 =
      (s.effTbl.filter
        (fun r => (r.1.1 == normB s.currBuckt) &&
          likeMatch (pat ++ "%").data r.1.2.data)).map (fun r => r.1.2) ∧
    (s.ListKeys pat).2.1 = none ∧
    (s.ListKeys pat).2.2.effTbl = s.effTbl ∧
    (s.ListKeys pat).2.2.committed = s.committed ∧
    (s.ListKeys pat).2.2.currBuckt = normB s.currBuckt ∧
    (s.ListKeys pat).2.2.inTransaction = s.inTransaction ∧
    (s.ListKeys pat).2.2.autoClose = s.autoClose ∧
    (s.ListKeys pat).2.2.WF := by
  by_cases hin : s.inTransaction
  · obtain ⟨hdb, hac, w, htx⟩ := h hin
    by_cases hcb : s.currBuckt = "" <;>
      simp [KV.ListKeys, KV.Open, hdb, KV.readTbl, hin, htx, KV.finOp, hac,
        KV.effTbl, KV.WF, normB, hcb]
  · have hin' : s.inTransaction = false := by simpa using hin
    by_cases hcb : s.currBuckt = "" <;> by_cases hdb : s.dbOpen <;>
      by_cases hac : s.autoClose <;>
      simp [KV.ListKeys, KV.Open, hdb, KV.readTbl, hin', KV.finOp, hac,
        KV.effTbl, KV.WF, normB, hcb, KV.Close]

theorem goLen_default_le : goLen "default" ≤ 50 := by decide

theorem goLen_normB_le (b : String) (hb : goLen b ≤ 50) : goLen (normB b) ≤ 50 := by
  rw [normB]
  by_cases hcb : b = ""
  · rw [if_pos hcb]; exact goLen_default_le
  · rw [if_neg hcb]; exact hb

theorem normB_setState (s : KV) :
    (if s.currBuckt = "" then { s with currBuckt := "default" } else s) =
      { s with currBuckt := normB s.currBuckt } := by
  rw [normB]
  by_cases hcb : s.currBuckt = "" <;> simp [hcb]

theorem WF_currBuckt (s : KV) (h : s.WF) (b : String) :
    ({ s with currBuckt := b } : KV).WF := by
  intro hin
  exact h hin

theorem effTbl_currBuckt (s : KV) (b : String) :
    ({ s with currBuckt := b } : KV).effTbl = s.effTbl := rfl

theorem effTbl_SetBucket (s : KV) (b : String) :
    (s.SetBucket b).effTbl = s.effTbl := rfl

theorem Set_spec (s : KV) (h : s.WF) (k v : String)
    (hb : goLen s.currBuckt ≤ 50) (hk : goLen k ≤ 300)
    (hv : goLen v ≤ 16777215) :
    (s.Set k v).1 = some .errArgCountMismatch ∧
    (s.Set k v).2.effTbl = s.effTbl ∧
    (s.Set k v).2.committed = s.committed ∧
    (s.Set k v).2.currBuckt = normB s.currBuckt ∧
    (s.Set k v).2.inTransaction = s.inTransaction ∧
    (s.Set k v).2.autoClose = s.autoClose ∧
    (s.Set k v).2.WF := by
  have hstep : s.Set k v =
      ({ s with currBuckt := normB s.currBuckt } : KV).set (normB s.currBuckt) k v := by
    rw [KV.Set, normB_setState s]
  rw [hstep]
  have hwf : ({ s with currBuckt := normB s.currBuckt } : KV).WF := WF_currBuckt s h _
  rw [set_errArity _ hwf (normB s.currBuckt) k v (goLen_normB_le _ hb) hk hv]
  exact ⟨rfl, postOp_effTbl _ hwf, postOp_committed _, postOp_currBuckt _,
    postOp_inTransaction _ hwf, postOp_autoClose _, postOp_WF _ hwf⟩

theorem Get_val (s : KV) (h : s.WF) (k : String) :
    (s.Get k).1 = (lookupT s.effTbl (normB s.currBuckt) k).getD "" ∧
    (s.Get k).2.1 = none := by
  rw [KV.Get, get_eq s h s.currBuckt k]
  exact ⟨rfl, rfl⟩

theorem normB_mimeBuckt : normB mimeBuckt = mimeBuckt := by decide

theorem GetMime_val (s : KV) (h : s.WF) (k : String) :
    (s.GetMime k).1 =
      (if (lookupT s.effTbl mimeBuckt k).getD "" = "" then "text/html"
       else (lookupT s.effTbl mimeBuckt k).getD "") ∧
    (s.GetMime k).2.1 = none := by
  rw [KV.GetMime, get_eq s h mimeBuckt k, normB_mimeBuckt]
  exact ⟨rfl, rfl⟩

theorem goLen_mimeBuckt_le : goLen mimeBuckt ≤ 50 := by decide

theorem SetMime_spec (s : KV) (h : s.WF) (k m : String)
    (hk : goLen k ≤ 300) (hm : goLen m ≤ 16777215) :
    (s.SetMime k m).1 = some .errArgCountMismatch ∧
    (s.SetMime k m).2.effTbl = s.effTbl ∧
    (s.SetMime k m).2.committed = s.committed ∧
    (s.SetMime k m).2.currBuckt = s.currBuckt ∧
    (s.SetMime k m).2.inTransaction = s.inTransaction ∧
    (s.SetMime k m).2.autoClose = s.autoClose ∧
    (s.SetMime k m).2.WF := by
  rw [KV.SetMime, set_errArity s h mimeBuckt k m goLen_mimeBuckt_le hk hm]
  exact ⟨rfl, postOp_effTbl s h, postOp_committed s, postOp_currBuckt s,
    postOp_inTransaction s h, postOp_autoClose s, postOp_WF s h⟩

theorem Tally_init (s : KV) (h : s.WF) (key : String) (off : Int) (w : String)
    (hsome : lookupT s.effTbl (normB s.currBuckt) (tallyKeyFor key) = some w)
    (hw : w ≠ "") :
    (s.Tally key off).1 = goAtoi w ∧
    (s.Tally key off).2.1 = none ∧
    (s.Tally key off).2.2.effTbl = s.effTbl ∧
    (s.Tally key off).2.2.committed = s.committed ∧
    (s.Tally key off).2.2.currBuckt = s.currBuckt ∧
    (s.Tally key off).2.2.inTransaction = s.inTransaction ∧
    (s.Tally key off).2.2.autoClose = s.autoClose ∧
    (s.Tally key off).2.2.WF := by
  have hget := get_eq s h s.currBuckt (tallyKeyFor key)
  have heq : s.Tally key off = (goAtoi w, none, (s.Open).finOp) := by
    simp only [KV.Tally, hget, hsome, Option.getD_some, if_neg hw]
  rw [heq]
  exact ⟨rfl, rfl, postOp_effTbl s h, postOp_committed s, postOp_currBuckt s,
    postOp_inTransaction s h, postOp_autoClose s, postOp_WF s h⟩

theorem Tally_fresh (s : KV) (h : s.WF) (key : String) (off : Int)
    (hnone : lookupT s.effTbl (normB s.currBuckt) (tallyKeyFor key) = none)
    (hb : goLen s.currBuckt ≤ 50) (hk : goLen (tallyKeyFor key) ≤ 300)
    (hv : goLen (goItoa off) ≤ 16777215) :
    (s.Tally key off).1 = -1 ∧
    (s.Tally key off).2.1 = some .errArgCountMismatch ∧
    (s.Tally key off).2.2.effTbl = s.effTbl ∧
    (s.Tally key off).2.2.committed = s.committed ∧
    (s.Tally key off).2.2.currBuckt = s.currBuckt ∧
    (s.Tally key off).2.2.inTransaction = s.inTransaction ∧
    (s.Tally key off).2.2.autoClose = s.autoClose ∧
    (s.Tally key off).2.2.WF := by
  have hget := get_eq s h s.currBuckt (tallyKeyFor key)
  have hp := postOp_WF s h
  have hcb := postOp_currBuckt s
  have hset := set_errArity ((s.Open).finOp) hp ((s.Open).finOp).currBuckt
    (tallyKeyFor key) (goItoa off) (by rw [hcb]; exact hb) hk hv
  have heq : s.Tally key off =
      (-1, some .errArgCountMismatch, (((s.Open).finOp).Open).finOp) := by
    simp [KV.Tally, hget, hnone, hset]
  rw [heq]
  refine ⟨rfl, rfl, ?_, ?_, ?_, ?_, ?_, postOp_WF _ hp⟩
  · rw [postOp_effTbl _ hp, postOp_effTbl s h]
  · rw [postOp_committed, postOp_committed]
  · rw [postOp_currBuckt, postOp_currBuckt]
  · rw [postOp_inTransaction _ hp, postOp_inTransaction s h]
  · rw [postOp_autoClose, postOp_autoClose]

/-! ## Remaining small helpers -/

theorem WF_of_not_inTx (s : KV) (h : s.inTransaction = false) : s.WF := by
  intro hin
  rw [h] at hin
  cases hin

theorem normB_idem (b : String) : normB (normB b) = normB b := by
  rw [normB, normB]
  by_cases hcb : b = "" <;> simp [hcb]

theorem normB_of_ne (b : String) (h : b ≠ "") : normB b = b := if_neg h

theorem goLen_empty : goLen "" = 0 := by decide

/-! ## The claims -/

/-- C1 counterexample: on a fresh key, `Tally("x", 5)` does not initialize
the counter to `5` and return `5` — the initialization write fails on the
malformed upsert statement (three arguments bound to four placeholders), so
the call returns `-1` with the argument-count error and the database is left
without any tally record. -/
theorem c1_counterexample :
    (((NewMyPlainKV [] false).Open).Tally "x" 5).1 = -1 ∧
    (((NewMyPlainKV [] false).Open).Tally "x" 5).2.1 =
      some GoErr.errArgCountMismatch ∧
    (((NewMyPlainKV [] false).Open).Tally "x" 5).2.2.committed = [] ∧
    (-1 : Int) ≠ 5 := by
  decide

/-- C1 (amended): for a key with no tally record in the current (non-empty)
bucket, `Tally(key, offset)` attempts to initialize the counter but the write
fails on the malformed upsert statement, so it returns `-1` together with the
argument-count error and stores nothing; for a key whose tally record is
already initialized to a 64-bit integer `n`, `Tally(key, offset)` returns `n`
unchanged for any offset and performs no write. -/
theorem c1_amended_tally (s : KV) (h : s.WF) (key : String) (off n : Int)
    (hcb : s.currBuckt ≠ "") (hb : goLen s.currBuckt ≤ 50)
    (hk : goLen (tallyKeyFor key) ≤ 300)
    (hv : goLen (goItoa off) ≤ 16777215)
    (hlo : int64Min ≤ n) (hhi : n ≤ int64Max) :
    (lookupT s.effTbl s.currBuckt (tallyKeyFor key) = none →
      (s.Tally key off).1 = -1 ∧
      (s.Tally key off).2.1 = some .errArgCountMismatch ∧
      (s.Tally key off).2.2.effTbl = s.effTbl) ∧
    (lookupT s.effTbl s.currBuckt (tallyKeyFor key) = some (goItoa n) →
      (s.Tally key off).1 = n ∧ (s.Tally key off).2.1 = none ∧
      (s.Tally key off).2.2.effTbl = s.effTbl) := by
  have hnb : normB s.currBuckt = s.currBuckt := normB_of_ne _ hcb
  constructor
  · intro hnone
    obtain ⟨h1, h2, h3, _⟩ :=
      Tally_fresh s h key off (by rw [hnb]; exact hnone) hb hk hv
    exact ⟨h1, h2, h3⟩
  · intro hsome
    obtain ⟨h1, h2, h3, _⟩ := Tally_init s h key off (goItoa n)
      (by rw [hnb]; exact hsome) (goItoa_ne_empty n)
    exact ⟨by rw [h1, goAtoi_goItoa n hlo hhi], h2, h3⟩

/-- C1 witness: the amended theorem applied to a fresh open handle (the
uninitialized branch, where the initialization write fails) and to a handle
whose database already holds the tally record `"5"` (the initialized branch,
with a later offset of `99`). -/
theorem c1_amended_tally_witness :
    ((((NewMyPlainKV [] false).Open).Tally "x" 5).1 = -1 ∧
      (((NewMyPlainKV [] false).Open).Tally "x" 5).2.1 =
        some GoErr.errArgCountMismatch ∧
      (((NewMyPlainKV [] false).Open).Tally "x" 5).2.2.effTbl =
        ((NewMyPlainKV [] false).Open).effTbl) ∧
    ((((NewMyPlainKV [(("default", "_______#tally-x"), "5")] false).Open).Tally
        "x" 99).1 = 5 ∧
      (((NewMyPlainKV [(("default", "_______#tally-x"), "5")] false).Open).Tally
        "x" 99).2.1 = none ∧
      (((NewMyPlainKV [(("default", "_______#tally-x"), "5")] false).Open).Tally
        "x" 99).2.2.effTbl =
        ((NewMyPlainKV [(("default", "_______#tally-x"), "5")] false).Open).effTbl) := by
  constructor
  · exact (c1_amended_tally ((NewMyPlainKV [] false).Open)
      (WF_of_not_inTx _ rfl) "x" 5 5 (by decide) (by decide)
      (by decide) (by decide) (by decide) (by decide)).1 (by decide)
  · exact (c1_amended_tally
      ((NewMyPlainKV [(("default", "_______#tally-x"), "5")] false).Open)
      (WF_of_not_inTx _ rfl) "x" 99 5 (by decide) (by decide)
      (by decide) (by decide) (by decide) (by decide)).2 (by decide)

/-- C2: the claimed round trip cannot occur in this package — the upsert
statement binds three arguments to four placeholders, so even a fully
in-limit `Set` (here the repository's own test input
`Set("sample_key", "Sample value")`) fails with the argument-count error and
writes nothing, and the follow-up `Get` returns the empty value instead of
the value written. -/
theorem c2_set_never_succeeds :
    (((NewMyPlainKV [] false).Open).Set "sample_key" "Sample value").1 =
      some GoErr.errArgCountMismatch ∧
    ((((NewMyPlainKV [] false).Open).Set "sample_key" "Sample value").2.Get
      "sample_key").1 = "" ∧
    (((NewMyPlainKV [] false).Open).Set "sample_key"
      "Sample value").2.committed = [] := by
  decide

/-- C4: a `Set` whose effective bucket, key or value exceeds its size limit
fails with the corresponding exported error and leaves both the effective
table and the durable table exactly as they were; a `SetMime` with an
oversized key or mime value likewise (its bucket, the 8-byte reserved mime
bucket, can never exceed the bucket limit). -/
theorem c4_validation_no_write (s : KV) (h : s.WF) (k v m : String) :
    (goLen s.currBuckt > 50 →
      (s.Set k v).1 = some .errBucketIdTooLong ∧
      (s.Set k v).2.effTbl = s.effTbl ∧
      (s.Set k v).2.committed = s.committed) ∧
    (goLen s.currBuckt ≤ 50 → goLen k > 300 →
      (s.Set k v).1 = some .errKeyTooLong ∧
      (s.Set k v).2.effTbl = s.effTbl ∧
      (s.Set k v).2.committed = s.committed) ∧
    (goLen s.currBuckt ≤ 50 → goLen k ≤ 300 → goLen v > 16777215 →
      (s.Set k v).1 = some .errValueTooLong ∧
      (s.Set k v).2.effTbl = s.effTbl ∧
      (s.Set k v).2.committed = s.committed) ∧
    (goLen k > 300 →
      (s.SetMime k m).1 = some .errKeyTooLong ∧
      (s.SetMime k m).2.effTbl = s.effTbl ∧
      (s.SetMime k m).2.committed = s.committed) ∧
    (goLen k ≤ 300 → goLen m > 16777215 →
      (s.SetMime k m).1 = some .errValueTooLong ∧
      (s.SetMime k m).2.effTbl = s.effTbl ∧
      (s.SetMime k m).2.committed = s.committed) := by
  have hsn : ∀ b : String, s.Set k v =
      ({ s with currBuckt := normB s.currBuckt } : KV).set (normB s.currBuckt) k v := by
    intro _
    rw [KV.Set, normB_setState s]
  have hwfn : ({ s with currBuckt := normB s.currBuckt } : KV).WF :=
    WF_currBuckt s h _
  refine ⟨?_, ?_, ?_, ?_, ?_⟩
  · intro hbig
    have hne : s.currBuckt ≠ "" := by
      intro hh
      rw [hh, goLen_empty] at hbig
      omega
    have hnb : normB s.currBuckt = s.currBuckt := normB_of_ne _ hne
    rw [hsn "", hnb, set_errB _ _ _ _ hbig]
    exact ⟨rfl, by rw [show ((some GoErr.errBucketIdTooLong,
        (({ s with currBuckt := s.currBuckt } : KV).Open).finOp) :
        Option GoErr × KV).2 = (({ s with currBuckt := s.currBuckt } : KV).Open).finOp
        from rfl, postOp_effTbl _ (by rw [hnb] at hwfn; exact hwfn)],
      by rw [show ((some GoErr.errBucketIdTooLong,
        (({ s with currBuckt := s.currBuckt } : KV).Open).finOp) :
        Option GoErr × KV).2 = (({ s with currBuckt := s.currBuckt } : KV).Open).finOp
        from rfl, postOp_committed]⟩
  · intro hb hk
    rw [hsn "", set_errK _ _ _ _ (by
      have := goLen_normB_le s.currBuckt hb
      omega) hk]
    exact ⟨rfl, postOp_effTbl _ hwfn, postOp_committed _⟩
  · intro hb hk hv
    rw [hsn "", set_errV _ _ _ _ (by
      have := goLen_normB_le s.currBuckt hb
      omega) (by omega) hv]
    exact ⟨rfl, postOp_effTbl _ hwfn, postOp_committed _⟩
  · intro hk
    rw [KV.SetMime, set_errK _ _ _ _ (by
      have := goLen_mimeBuckt_le
      omega) hk]
    exact ⟨rfl, postOp_effTbl _ h, postOp_committed _⟩
  · intro hk hm
    rw [KV.SetMime, set_errV _ _ _ _ (by
      have := goLen_mimeBuckt_le
      omega) (by omega) hm]
    exact ⟨rfl, postOp_effTbl _ h, postOp_committed _⟩

theorem utf8Len_replicate (c : Char) (hc : c.utf8Size = 1) :
    ∀ n : Nat, String.utf8Len (List.replicate n c) = n := by
  intro n
  induction n with
  | zero => rfl
  | succ m ih => simp [List.replicate, ih, hc]

theorem goLen_replicate (c : Char) (hc : c.utf8Size = 1) (n : Nat) :
    goLen ⟨List.replicate n c⟩ = n := by
  rw [goLen]
  show String.utf8Len (List.replicate n c) = n
  exact utf8Len_replicate c hc n

/-- C4 witness: the validation theorem applied to fresh handles, hitting the
oversized-bucket branch with a 51-byte bucket, the oversized-key branches
with a 301-byte key, and the oversized-value branches with a
16777216-byte value. -/
theorem c4_validation_no_write_witness :
    (((((NewMyPlainKV [] false).Open).SetBucket ⟨List.replicate 51 'b'⟩).Set
        "k" "v").1 = some .errBucketIdTooLong ∧
      ((((NewMyPlainKV [] false).Open).SetBucket ⟨List.replicate 51 'b'⟩).Set
        "k" "v").2.effTbl =
        (((NewMyPlainKV [] false).Open).SetBucket ⟨List.replicate 51 'b'⟩).effTbl ∧
      ((((NewMyPlainKV [] false).Open).SetBucket ⟨List.replicate 51 'b'⟩).Set
        "k" "v").2.committed =
        (((NewMyPlainKV [] false).Open).SetBucket ⟨List.replicate 51 'b'⟩).committed) ∧
    ((((NewMyPlainKV [] false).Open).Set (⟨List.replicate 301 'k'⟩ : String)
        "v").1 = some .errKeyTooLong ∧
      (((NewMyPlainKV [] false).Open).SetMime (⟨List.replicate 301 'k'⟩ : String)
        "m").1 = some .errKeyTooLong) ∧
    ((((NewMyPlainKV [] false).Open).Set "k"
        (⟨List.replicate 16777216 'v'⟩ : String)).1 = some .errValueTooLong ∧
      (((NewMyPlainKV [] false).Open).SetMime "k"
        (⟨List.replicate 16777216 'v'⟩ : String)).1 = some .errValueTooLong) := by
  have h51 : goLen (⟨List.replicate 51 'b'⟩ : String) = 51 :=
    goLen_replicate 'b' (by decide) 51
  have h301 : goLen (⟨List.replicate 301 'k'⟩ : String) = 301 :=
    goLen_replicate 'k' (by decide) 301
  have hbig : goLen (⟨List.replicate 16777216 'v'⟩ : String) = 16777216 :=
    goLen_replicate 'v' (by decide) 16777216
  have hwf : ∀ b : String, (((NewMyPlainKV [] false).Open).SetBucket b).WF :=
    fun b => WF_of_not_inTx _ rfl
  have hwf0 : ((NewMyPlainKV [] false).Open).WF :=
    WF_of_not_inTx _ (by decide)
  refine ⟨?_, ⟨?_, ?_⟩, ⟨?_, ?_⟩⟩
  · exact (c4_validation_no_write _ (hwf ⟨List.replicate 51 'b'⟩) "k" "v" "m").1
      (by rw [show (((NewMyPlainKV [] false).Open).SetBucket
        ⟨List.replicate 51 'b'⟩).currBuckt = ⟨List.replicate 51 'b'⟩ from rfl,
        h51]; omega)
  · exact ((c4_validation_no_write _ hwf0 ⟨List.replicate 301 'k'⟩ "v" "m").2.1
      (by decide) (by rw [h301]; omega)).1
  · exact ((c4_validation_no_write _ hwf0 ⟨List.replicate 301 'k'⟩ "v" "m").2.2.2.1
      (by rw [h301]; omega)).1
  · exact ((c4_validation_no_write _ hwf0 "k"
      (⟨List.replicate 16777216 'v'⟩ : String) "m").2.2.1
      (by decide) (by decide) (by rw [hbig]; omega)).1
  · exact ((c4_validation_no_write _ hwf0 "k" "v"
      (⟨List.replicate 16777216 'v'⟩ : String)).2.2.2.2
      (by decide) (by rw [hbig]; omega)).1

/-- C5: `Del(key)` attempts both the data-row and the mime-row deletions
(regardless of whether the data record existed), succeeds, and afterwards
`Get(key)` on the same bucket returns an empty value and `GetMime(key)`
returns `"text/html"`, both without error. -/
theorem c5_del_data_and_mime (s : KV) (h : s.WF) (k : String) :
    (s.Del k).1 = none ∧
    (s.Del k).2.effTbl =
      deleteT (deleteT s.effTbl (normB s.currBuckt) k) mimeBuckt k ∧
    ((s.Del k).2.Get k).1 = "" ∧ ((s.Del k).2.Get k).2.1 = none ∧
    ((s.Del k).2.GetMime k).1 = "text/html" ∧
    ((s.Del k).2.GetMime k).2.1 = none := by
  obtain ⟨h1, h2, _, h4, _, _, h7⟩ := del_spec s h k
  refine ⟨h1, h2, ?_, (Get_val _ h7 k).2, ?_, (GetMime_val _ h7 k).2⟩
  · rw [(Get_val _ h7 k).1, h2, h4, normB_idem]
    by_cases hmb : normB s.currBuckt = mimeBuckt
    · rw [hmb, lookupT_deleteT_self]
      rfl
    · rw [lookupT_deleteT_ne _ _ _ _ _ (by
        rintro ⟨hbb, _⟩
        exact hmb hbb.symm), lookupT_deleteT_self]
      rfl
  · rw [(GetMime_val _ h7 k).1, h2, lookupT_deleteT_self]
    rfl

/-- C5 witness: deleting `"k"` on a handle whose database holds both a data
record and a mime record for `"k"` removes both, and the follow-up reads see
the empty value and the default mime type. -/
theorem c5_del_data_and_mime_witness :
    ((((NewMyPlainKV [(("default", "k"), "v"), (("--mime--", "k"), "m")]
        false).Open).Del "k").1 = none ∧
      (((NewMyPlainKV [(("default", "k"), "v"), (("--mime--", "k"), "m")]
        false).Open).Del "k").2.effTbl =
        deleteT (deleteT ((NewMyPlainKV [(("default", "k"), "v"),
          (("--mime--", "k"), "m")] false).Open).effTbl
          (normB ((NewMyPlainKV [(("default", "k"), "v"),
            (("--mime--", "k"), "m")] false).Open).currBuckt) "k") mimeBuckt "k" ∧
      ((((NewMyPlainKV [(("default", "k"), "v"), (("--mime--", "k"), "m")]
        false).Open).Del "k").2.Get "k").1 = "" ∧
      ((((NewMyPlainKV [(("default", "k"), "v"), (("--mime--", "k"), "m")]
        false).Open).Del "k").2.Get "k").2.1 = none ∧
      ((((NewMyPlainKV [(("default", "k"), "v"), (("--mime--", "k"), "m")]
        false).Open).Del "k").2.GetMime "k").1 = "text/html" ∧
      ((((NewMyPlainKV [(("default", "k"), "v"), (("--mime--", "k"), "m")]
        false).Open).Del "k").2.GetMime "k").2.1 = none) :=
  c5_del_data_and_mime _ (WF_of_not_inTx _ rfl) "k"

/-- C6 counterexample: with only the key `"x"` stored in the current bucket,
`ListKeys("_")` returns `["x"]`, although `"x"` does not begin with the
pattern `"_"` — the unescaped pattern is interpreted by `LIKE` as a wildcard,
not as a literal prefix. -/
theorem c6_counterexample :
    (((NewMyPlainKV [(("default", "x"), "v")] false).Open).ListKeys "_").1 =
      ["x"] ∧
    List.isPrefixOf "_".data "x".data = false := by
  decide

/-- C6 (amended): for every pattern containing no `LIKE` metacharacter
(`'%'`, `'_'` or `'\'`), `ListKeys(pattern)` succeeds and returns exactly the
keys of the current bucket whose name begins with `pattern` (in
backend-defined order, empty with no error when nothing matches); a pattern
containing metacharacters is instead interpreted by the backend's `LIKE`
operator. -/
theorem c6_amended_listkeys (s : KV) (h : s.WF) (pat : String)
    (hc : ∀ c ∈ pat.data, c ≠ '%' ∧ c ≠ '_' ∧ c ≠ '\\') :
    (s.ListKeys pat).2.1 = none ∧
    ∀ k, k ∈ (s.ListKeys pat).1 ↔
      ((∃ v, ((normB s.currBuckt, k), v) ∈ s.effTbl) ∧
        List.isPrefixOf pat.data k.data = true) := by
  obtain ⟨h1, h2, _⟩ := listKeys_spec s h pat
  refine ⟨h2, ?_⟩
  intro k
  rw [h1]
  have hconv : (pat ++ "%").data = pat.data ++ ['%'] := by
    rw [String.data_append]
  simp only [List.mem_map, List.mem_filter, Bool.and_eq_true, beq_iff_eq]
  constructor
  · rintro ⟨⟨⟨b', k'⟩, v⟩, ⟨hmem, hb', hlike⟩, rfl⟩
    rw [hconv, likeMatch_clean pat.data _ hc] at hlike
    subst hb'
    exact ⟨⟨v, hmem⟩, hlike⟩
  · rintro ⟨⟨v, hmem⟩, hpre⟩
    refine ⟨((normB s.currBuckt, k), v), ⟨hmem, rfl, ?_⟩, rfl⟩
    rw [hconv, likeMatch_clean pat.data _ hc]
    exact hpre

/-- C6 witness: `ListKeys("sample")` on a database holding `sample1`,
`sample2` and `other1` in the current bucket matches exactly the two
`sample`-prefixed keys. -/
theorem c6_amended_listkeys_witness :
    ((((NewMyPlainKV [(("default", "sample1"), "a"), (("default", "sample2"), "b"),
        (("default", "other1"), "c")] false).Open).ListKeys "sample").2.1 =
      none ∧
    (∀ k, k ∈ (((NewMyPlainKV [(("default", "sample1"), "a"),
        (("default", "sample2"), "b"), (("default", "other1"), "c")]
        false).Open).ListKeys "sample").1 ↔
      ((∃ v, ((normB ((NewMyPlainKV [(("default", "sample1"), "a"),
          (("default", "sample2"), "b"), (("default", "other1"), "c")]
          false).Open).currBuckt, k), v) ∈
        ((NewMyPlainKV [(("default", "sample1"), "a"),
          (("default", "sample2"), "b"), (("default", "other1"), "c")]
          false).Open).effTbl) ∧
        List.isPrefixOf "sample".data k.data = true))) :=
  c6_amended_listkeys _ (WF_of_not_inTx _ rfl) "sample" (by decide)

/-- An open handle on an empty database with no transaction ever begun. -/
def kvFresh : KV := (NewMyPlainKV [] false).Open

/-- The handle after `Begin`: a live transaction. -/
def kvLive : KV := (kvFresh.Begin).2

/-- The handle after `Begin` then `Commit`: no transaction is active, but the
finished transaction handle is still set. -/
def kvDone : KV := (kvLive.Commit).2

/-- C7 counterexample: after a `Begin`/`Commit` pair no transaction is active,
yet a second `Commit` (or a `Rollback`) does not silently succeed — the stale
transaction handle is still non-nil, so the call hits `sql.ErrTxDone`. -/
theorem c7_counterexample :
    (kvDone.Commit).1 = some GoErr.errTxDone ∧
    (kvDone.Rollback).1 = some GoErr.errTxDone ∧
    kvDone.inTransaction = false := by
  decide

/-- C7 (amended): `Commit()` and `Rollback()` are silent no-ops only when the
transaction handle is nil (no transaction begun since the handle was opened,
or cleared by `Close`); on a live transaction they finalize it and clear the
in-transaction flag; after a prior `Commit` or `Rollback` has finished the
transaction, the stale handle makes both calls fail with `sql.ErrTxDone`
instead of silently succeeding. -/
theorem c7_amended_commit_rollback (s : KV) :
    (s.tx = none → s.Commit = (none, s) ∧ s.Rollback = (none, s)) ∧
    (∀ w, s.tx = some { view := w, done := false } →
      (s.Commit).1 = none ∧ (s.Commit).2.inTransaction = false ∧
      (s.Commit).2.committed = w ∧
      (s.Rollback).1 = none ∧ (s.Rollback).2.inTransaction = false ∧
      (s.Rollback).2.committed = s.committed) ∧
    (∀ w, s.tx = some { view := w, done := true } →
      (s.Commit).1 = some .errTxDone ∧ (s.Rollback).1 = some .errTxDone ∧
      (s.Commit).2 = s ∧ (s.Rollback).2 = s) := by
  refine ⟨?_, ?_, ?_⟩
  · intro htx
    simp [KV.Commit, KV.Rollback, htx]
  · intro w htx
    simp [KV.Commit, KV.Rollback, htx]
  · intro w htx
    simp [KV.Commit, KV.Rollback, htx]

/-- C7 witness: the amended theorem applied to the three reachable shapes of
the transaction handle (never begun, live, finished). -/
theorem c7_amended_commit_rollback_witness :
    (kvFresh.Commit = (none, kvFresh) ∧ kvFresh.Rollback = (none, kvFresh)) ∧
    ((kvLive.Commit).1 = none ∧ (kvLive.Commit).2.inTransaction = false ∧
      (kvLive.Commit).2.committed = [] ∧ (kvLive.Rollback).1 = none ∧
      (kvLive.Rollback).2.inTransaction = false ∧
      (kvLive.Rollback).2.committed = kvLive.committed) ∧
    ((kvDone.Commit).1 = some .errTxDone ∧
      (kvDone.Rollback).1 = some .errTxDone ∧
      (kvDone.Commit).2 = kvDone ∧ (kvDone.Rollback).2 = kvDone) :=
  ⟨(c7_amended_commit_rollback kvFresh).1 (by decide),
    (c7_amended_commit_rollback kvLive).2.1 [] (by decide),
    (c7_amended_commit_rollback kvDone).2.2 [] (by decide)⟩

/-- C8: `Begin()` on a handle whose connection was never opened dereferences
the nil `p.db` and panics (a Go nil-pointer dereference), instead of
returning a `TransactionError` as the claim requires. -/
theorem c8_begin_nil_panics :
    ((NewMyPlainKV [] false).Begin).1 = some GoErr.panicNilPointer ∧
    ((NewMyPlainKV [] true).Begin).1 = some GoErr.panicNilPointer := by
  decide

theorem normB_empty : normB "" = "default" := by decide

/-- C9 counterexample: with the current bucket set to the empty string, the
claimed "reads and writes bucket `default`" fails for the tally operations:
`Tally("x", 5)` reads bucket `"default"`, but its initialization write —
issued through the raw, un-normalized empty bucket — fails on the malformed
upsert statement, so the call returns `-1` with the argument-count error and
no record is written to bucket `"default"` (or anywhere else). -/
theorem c9_counterexample :
    ((((NewMyPlainKV [] false).Open).SetBucket "").Tally "x" 5).1 = -1 ∧
    ((((NewMyPlainKV [] false).Open).SetBucket "").Tally "x" 5).2.1 =
      some GoErr.errArgCountMismatch ∧
    ((((NewMyPlainKV [] false).Open).SetBucket "").Tally "x"
      5).2.2.committed = [] := by
  decide

/-- C9 (amended): with an unset (empty) current bucket, `Get`, `Del` and
`ListKeys` resolve both their read and write halves to bucket `"default"`
(and `Del`'s deletions really address it); `Set` normalizes the handle's
bucket to `"default"` and addresses it, and the tally operations read bucket
`"default"`; but every upsert-based write (`Set` and all tally updates, the
latter issued through the raw un-normalized bucket) fails on the malformed
upsert statement and stores nothing, so no write ever reaches bucket
`"default"` either. -/
theorem c9_amended_default_bucket (s : KV) (h : s.WF) (hcb : s.currBuckt = "")
    (k v pat : String) (off : Int)
    (hk : goLen k ≤ 300) (hv : goLen v ≤ 16777215)
    (htk : goLen (tallyKeyFor k) ≤ 300)
    (hoff : goLen (goItoa off) ≤ 16777215) :
    ((s.Get k).1 = (lookupT s.effTbl "default" k).getD "") ∧
    ((s.Set k v).1 = some .errArgCountMismatch ∧
      (s.Set k v).2.effTbl = s.effTbl ∧
      (s.Set k v).2.currBuckt = "default") ∧
    ((s.Del k).2.effTbl = deleteT (deleteT s.effTbl "default" k) mimeBuckt k) ∧
    ((s.ListKeys pat).1 =
      (s.effTbl.filter (fun r => (r.1.1 == "default") &&
        likeMatch (pat ++ "%").data r.1.2.data)).map (fun r => r.1.2)) ∧
    (∀ w, lookupT s.effTbl "default" (tallyKeyFor k) = some w → w ≠ "" →
      (s.Tally k off).1 = goAtoi w ∧ (s.Tally k off).2.2.effTbl = s.effTbl) ∧
    (lookupT s.effTbl "default" (tallyKeyFor k) = none →
      (s.Tally k off).1 = -1 ∧
      (s.Tally k off).2.1 = some .errArgCountMismatch ∧
      (s.Tally k off).2.2.effTbl = s.effTbl) ∧
    ((s.TallyReset k).1 = some .errArgCountMismatch ∧
      (s.TallyReset k).2.effTbl = s.effTbl) ∧
    (lookupT s.effTbl "default" (tallyKeyFor k) = none →
      ((s.TallyIncr k).1 = -1 ∧
        (s.TallyIncr k).2.1 = some .errArgCountMismatch ∧
        (s.TallyIncr k).2.2.effTbl = s.effTbl) ∧
      ((s.TallyDecr k).1 = -1 ∧
        (s.TallyDecr k).2.1 = some .errArgCountMismatch ∧
        (s.TallyDecr k).2.2.effTbl = s.effTbl)) := by
  have hb0 : goLen s.currBuckt ≤ 50 := by rw [hcb]; decide
  have hnb : normB s.currBuckt = "default" := by rw [hcb]; exact normB_empty
  refine ⟨?_, ?_, ?_, ?_, ?_, ?_, ?_, ?_⟩
  · rw [(Get_val s h k).1, hnb]
  · obtain ⟨s1, s2, _, s4, _⟩ := Set_spec s h k v hb0 hk hv
    exact ⟨s1, s2, by rw [s4, hnb]⟩
  · rw [(del_spec s h k).2.1, hnb]
  · rw [(listKeys_spec s h pat).1, hnb]
  · intro w hw hwne
    obtain ⟨t1, _, t3, _⟩ :=
      Tally_init s h k off w (by rw [hnb]; exact hw) hwne
    exact ⟨t1, t3⟩
  · intro hnone
    obtain ⟨t1, t2, t3, _⟩ :=
      Tally_fresh s h k off (by rw [hnb]; exact hnone) hb0 htk hoff
    exact ⟨t1, t2, t3⟩
  · rw [KV.TallyReset,
      set_errArity s h s.currBuckt (tallyKeyFor k) "0" hb0 htk (by decide)]
    exact ⟨rfl, postOp_effTbl s h⟩
  · intro hnone
    obtain ⟨t1, t2, t3, _⟩ :=
      Tally_fresh s h k 0 (by rw [hnb]; exact hnone) hb0 htk (by decide)
    rcases hT : s.Tally k 0 with ⟨tlly, e1, s1⟩
    rw [hT] at t1 t2 t3
    obtain rfl : tlly = -1 := t1
    obtain rfl : e1 = some GoErr.errArgCountMismatch := t2
    have ht3 : s1.effTbl = s.effTbl := t3
    constructor
    · have heq : s.TallyIncr k = (-1, some GoErr.errArgCountMismatch, s1) := by
        simp [KV.TallyIncr, hT]
      rw [heq]
      exact ⟨rfl, rfl, ht3⟩
    · have heq : s.TallyDecr k = (-1, some GoErr.errArgCountMismatch, s1) := by
        simp [KV.TallyDecr, hT]
      rw [heq]
      exact ⟨rfl, rfl, ht3⟩

/-- C9 witness: the amended theorem applied to an open handle whose current
bucket has been set to the empty string, discharging the fresh-tally branches
on an empty database and the initialized branch on a database holding the
tally record `"7"` under bucket `"default"`. -/
theorem c9_amended_default_bucket_witness :
    let s9 := ((NewMyPlainKV [] false).Open).SetBucket ""
    ((s9.Get "x").1 = (lookupT s9.effTbl "default" "x").getD "") ∧
    ((s9.Set "x" "v").1 = some GoErr.errArgCountMismatch ∧
      (s9.Set "x" "v").2.effTbl = s9.effTbl ∧
      (s9.Set "x" "v").2.currBuckt = "default") ∧
    ((s9.Del "x").2.effTbl =
      deleteT (deleteT s9.effTbl "default" "x") mimeBuckt "x") ∧
    ((s9.ListKeys "p").1 =
      (s9.effTbl.filter (fun r => (r.1.1 == "default") &&
        likeMatch ("p" ++ "%").data r.1.2.data)).map (fun r => r.1.2)) ∧
    (∀ w, lookupT s9.effTbl "default" (tallyKeyFor "x") = some w → w ≠ "" →
      (s9.Tally "x" 5).1 = goAtoi w ∧
      (s9.Tally "x" 5).2.2.effTbl = s9.effTbl) ∧
    (lookupT s9.effTbl "default" (tallyKeyFor "x") = none →
      (s9.Tally "x" 5).1 = -1 ∧
      (s9.Tally "x" 5).2.1 = some GoErr.errArgCountMismatch ∧
      (s9.Tally "x" 5).2.2.effTbl = s9.effTbl) ∧
    ((s9.TallyReset "x").1 = some GoErr.errArgCountMismatch ∧
      (s9.TallyReset "x").2.effTbl = s9.effTbl) ∧
    (lookupT s9.effTbl "default" (tallyKeyFor "x") = none →
      ((s9.TallyIncr "x").1 = -1 ∧
        (s9.TallyIncr "x").2.1 = some GoErr.errArgCountMismatch ∧
        (s9.TallyIncr "x").2.2.effTbl = s9.effTbl) ∧
      ((s9.TallyDecr "x").1 = -1 ∧
        (s9.TallyDecr "x").2.1 = some GoErr.errArgCountMismatch ∧
        (s9.TallyDecr "x").2.2.effTbl = s9.effTbl)) :=
  c9_amended_default_bucket (((NewMyPlainKV [] false).Open).SetBucket "")
    (WF_of_not_inTx _ rfl) rfl "x" "v" "p" 5 (by decide) (by decide)
    (by decide) (by decide)

/-- C10 counterexample: the claimed observable — a `SetMime` issued in
bucket `b1` changing what `GetMime` returns in bucket `b2` — cannot occur:
`SetMime` goes through the malformed upsert statement, fails with the
argument-count error and writes nothing, so `GetMime` still answers the
default `"text/html"` afterwards. -/
theorem c10_counterexample :
    ((((NewMyPlainKV [] false).Open).SetBucket "b1").SetMime "k"
      "application/json").1 = some GoErr.errArgCountMismatch ∧
    ((((((NewMyPlainKV [] false).Open).SetBucket "b1").SetMime "k"
      "application/json").2.SetBucket "b2").GetMime "k").1 = "text/html" := by
  decide

/-- C10 (amended): `GetMime`, `SetMime` and the mime half of `Del` all
address the single reserved bucket `"--mime--"` keyed only by the key
string, ignoring the handle's current bucket — a mime record present in the
database is returned by `GetMime` from any bucket, and `Del(k)` issued in
either bucket removes the shared record for both; but `SetMime` itself never
changes that record: its upsert fails on the malformed statement and writes
nothing, leaving `GetMime`'s answer unchanged. -/
theorem c10_mime_shared_bucket (s : KV) (h : s.WF) (b1 b2 k m m2 : String)
    (hm : lookupT s.effTbl mimeBuckt k = some m) (hmne : m ≠ "")
    (hk : goLen k ≤ 300) (hm2 : goLen m2 ≤ 16777215) :
    (((s.SetBucket b1).GetMime k).1 = m ∧
      ((s.SetBucket b2).GetMime k).1 = m) ∧
    (((s.SetBucket b1).SetMime k m2).1 = some .errArgCountMismatch ∧
      ((((s.SetBucket b1).SetMime k m2).2.SetBucket b2).GetMime k).1 = m) ∧
    ((((s.SetBucket b2).Del k).2.GetMime k).1 = "text/html" ∧
      ((((s.SetBucket b2).Del k).2.SetBucket b1).GetMime k).1 =
        "text/html") := by
  have h1 : ((s.SetBucket b1) : KV).WF := WF_currBuckt s h b1
  have h2 : ((s.SetBucket b2) : KV).WF := WF_currBuckt s h b2
  obtain ⟨m1, m2e, _, _, _, _, m7⟩ := SetMime_spec _ h1 k m2 hk hm2
  have h3 : ((((s.SetBucket b1).SetMime k m2).2.SetBucket b2) : KV).WF :=
    WF_currBuckt _ m7 b2
  have he3 : ((((s.SetBucket b1).SetMime k m2).2.SetBucket b2) : KV).effTbl =
      s.effTbl := by
    rw [effTbl_SetBucket, m2e, effTbl_SetBucket]
  obtain ⟨d1, d2, _, _, _, _, d7⟩ := del_spec _ h2 k
  have hd2 : (((s.SetBucket b2).Del k) : Option GoErr × KV).2.effTbl =
      deleteT (deleteT s.effTbl (normB b2) k) mimeBuckt k := by
    rw [d2]
    simp only [KV.SetBucket, effTbl_currBuckt]
  refine ⟨⟨?_, ?_⟩, ⟨m1, ?_⟩, ⟨?_, ?_⟩⟩
  · rw [(GetMime_val _ h1 k).1, effTbl_SetBucket, hm]
    simp [hmne]
  · rw [(GetMime_val _ h2 k).1, effTbl_SetBucket, hm]
    simp [hmne]
  · rw [(GetMime_val _ h3 k).1, he3, hm]
    simp [hmne]
  · rw [(GetMime_val _ d7 k).1, hd2, lookupT_deleteT_self]
    rfl
  · have h4 : (((s.SetBucket b2).Del k).2.SetBucket b1 : KV).WF :=
      WF_currBuckt _ d7 b1
    rw [(GetMime_val _ h4 k).1, effTbl_SetBucket, hd2, lookupT_deleteT_self]
    rfl

/-- C10 witness: on a database already holding the mime record
`"application/json"` for key `"k"`, the record is read back from buckets
`"b1"` and `"b2"` alike, a `SetMime` from `"b1"` fails and changes nothing,
and a `Del` issued in `"b2"` removes the record for both buckets. -/
theorem c10_mime_shared_bucket_witness :
    let s0 := (NewMyPlainKV [(("--mime--", "k"), "application/json")]
      false).Open
    (((s0.SetBucket "b1").GetMime "k").1 = "application/json" ∧
      ((s0.SetBucket "b2").GetMime "k").1 = "application/json") ∧
    (((s0.SetBucket "b1").SetMime "k" "text/plain").1 =
        some GoErr.errArgCountMismatch ∧
      ((((s0.SetBucket "b1").SetMime "k" "text/plain").2.SetBucket
        "b2").GetMime "k").1 = "application/json") ∧
    ((((s0.SetBucket "b2").Del "k").2.GetMime "k").1 = "text/html" ∧
      ((((s0.SetBucket "b2").Del "k").2.SetBucket "b1").GetMime "k").1 =
        "text/html") :=
  c10_mime_shared_bucket
    ((NewMyPlainKV [(("--mime--", "k"), "application/json")] false).Open)
    (WF_of_not_inTx _ rfl) "b1" "b2" "k" "application/json" "text/plain"
    (by decide) (by decide) (by decide) (by decide)

theorem effTbl_not_inTx (s : KV) (h : s.inTransaction = false) :
    s.effTbl = s.committed := by
  simp [KV.effTbl, h]

/-- A write operation issued on the handle between `Begin` and
`Commit`/`Rollback`. -/
inductive WOp where
  | wset (key value : String)
  | wsetMime (key mime : String)
  | wdel (key : String)
  | wtally (key : String) (offset : Int)
  | wtallyIncr (key : String)
  | wtallyDecr (key : String)
  | wtallyReset (key : String)
deriving Repr

/-- Executes one write operation, keeping the resulting handle state whether
or not the operation reported an error (as a Go caller would). -/
def runWOp (s : KV) : WOp → KV
  | .wset k v => (s.Set k v).2
  | .wsetMime k m => (s.SetMime k m).2
  | .wdel k => (s.Del k).2
  | .wtally k off => (s.Tally k off).2.2
  | .wtallyIncr k => (s.TallyIncr k).2.2
  | .wtallyDecr k => (s.TallyDecr k).2.2
  | .wtallyReset k => (s.TallyReset k).2

/-- What an in-transaction operation preserves: the durable table is not
touched (writes are routed to the transaction), the session flags survive,
the effective bucket is stable, and well-formedness is maintained. -/
def opFacts (s s' : KV) : Prop :=
  s'.committed = s.committed ∧ s'.inTransaction = s.inTransaction ∧
  s'.autoClose = s.autoClose ∧ normB s'.currBuckt = normB s.currBuckt ∧
  s'.WF

theorem postOp_facts (s : KV) (h : s.WF) : opFacts s ((s.Open).finOp) :=
  ⟨postOp_committed s, postOp_inTransaction s h, postOp_autoClose s,
    by rw [postOp_currBuckt], postOp_WF s h⟩

theorem set_facts (s : KV) (h : s.WF) (b k v : String) :
    opFacts s (s.set b k v).2 := by
  rw [set_state]
  exact postOp_facts s h

theorem Set_facts (s : KV) (h : s.WF) (k v : String) :
    opFacts s (s.Set k v).2 := by
  rw [KV.Set, normB_setState s]
  have h' := WF_currBuckt s h (normB s.currBuckt)
  obtain ⟨f1, f2, f3, f4, f5⟩ :=
    set_facts { s with currBuckt := normB s.currBuckt } h'
      (normB s.currBuckt) k v
  exact ⟨f1, f2, f3, by rw [f4]; exact normB_idem _, f5⟩

theorem SetMime_facts (s : KV) (h : s.WF) (k m : String) :
    opFacts s (s.SetMime k m).2 := by
  rw [KV.SetMime]
  exact set_facts s h mimeBuckt k m

theorem Del_facts (s : KV) (h : s.WF) (hin : s.inTransaction = true)
    (k : String) : opFacts s (s.Del k).2 := by
  obtain ⟨_, _, d3, d4, d5, d6, d7⟩ := del_spec s h k
  exact ⟨by rw [d3, if_pos hin], d5, d6, by rw [d4]; exact normB_idem _, d7⟩

theorem TallyReset_facts (s : KV) (h : s.WF) (k : String) :
    opFacts s (s.TallyReset k).2 := by
  rw [KV.TallyReset]
  exact set_facts s h s.currBuckt (tallyKeyFor k) "0"

theorem Tally_facts (s : KV) (h : s.WF) (k : String) (off : Int) :
    opFacts s (s.Tally k off).2.2 := by
  have hget := get_eq s h s.currBuckt (tallyKeyFor k)
  have hpostF := postOp_facts s h
  have hp := postOp_WF s h
  have hlift : opFacts s
      (((s.Open).finOp).set ((s.Open).finOp).currBuckt (tallyKeyFor k)
        (goItoa off)).2 := by
    obtain ⟨f1, f2, f3, f4, f5⟩ := set_facts ((s.Open).finOp) hp
      ((s.Open).finOp).currBuckt (tallyKeyFor k) (goItoa off)
    obtain ⟨g1, g2, g3, g4, g5⟩ := hpostF
    exact ⟨f1.trans g1, f2.trans g2, f3.trans g3, f4.trans g4, f5⟩
  rcases hps : ((s.Open).finOp).set ((s.Open).finOp).currBuckt (tallyKeyFor k)
    (goItoa off) with ⟨e2, s2⟩
  rw [hps] at hlift
  rcases hlk : lookupT s.effTbl (normB s.currBuckt) (tallyKeyFor k) with _ | w
  · have heq : (s.Tally k off).2.2 = s2 := by
      cases e2 <;> simp [KV.Tally, hget, hlk, hps]
    rw [heq]
    exact hlift
  · by_cases hw : w = ""
    · have heq : (s.Tally k off).2.2 = s2 := by
        cases e2 <;> simp [KV.Tally, hget, hlk, hw, hps]
      rw [heq]
      exact hlift
    · have heq : (s.Tally k off).2.2 = (s.Open).finOp := by
        simp [KV.Tally, hget, hlk, hw]
      rw [heq]
      exact hpostF

theorem TallyIncr_facts (s : KV) (h : s.WF) (k : String) :
    opFacts s (s.TallyIncr k).2.2 := by
  have hT := Tally_facts s h k 0
  rcases hTe : s.Tally k 0 with ⟨tlly, e1, s1⟩
  rw [hTe] at hT
  obtain ⟨f1, f2, f3, f4, f5⟩ := hT
  cases e1 with
  | some e =>
    have heq : (s.TallyIncr k).2.2 = s1 := by
      simp [KV.TallyIncr, hTe]
    rw [heq]
    exact ⟨f1, f2, f3, f4, f5⟩
  | none =>
    have f5' : s1.WF := f5
    obtain ⟨g1, g2, g3, g4, g5⟩ := set_facts s1 f5' s1.currBuckt
      (tallyKeyFor k) (goItoa (tlly + 1))
    rcases hps : s1.set s1.currBuckt (tallyKeyFor k) (goItoa (tlly + 1))
      with ⟨e2, s2⟩
    rw [hps] at g1 g2 g3 g4 g5
    have heq : (s.TallyIncr k).2.2 = s2 := by
      cases e2 <;> simp [KV.TallyIncr, hTe, hps]
    rw [heq]
    exact ⟨g1.trans f1, g2.trans f2, g3.trans f3, g4.trans f4, g5⟩

theorem TallyDecr_facts (s : KV) (h : s.WF) (k : String) :
    opFacts s (s.TallyDecr k).2.2 := by
  have hT := Tally_facts s h k 0
  rcases hTe : s.Tally k 0 with ⟨tlly, e1, s1⟩
  rw [hTe] at hT
  obtain ⟨f1, f2, f3, f4, f5⟩ := hT
  cases e1 with
  | some e =>
    have heq : (s.TallyDecr k).2.2 = s1 := by
      simp [KV.TallyDecr, hTe]
    rw [heq]
    exact ⟨f1, f2, f3, f4, f5⟩
  | none =>
    have f5' : s1.WF := f5
    obtain ⟨g1, g2, g3, g4, g5⟩ := set_facts s1 f5' s1.currBuckt
      (tallyKeyFor k) (goItoa (tlly - 1))
    rcases hps : s1.set s1.currBuckt (tallyKeyFor k) (goItoa (tlly - 1))
      with ⟨e2, s2⟩
    rw [hps] at g1 g2 g3 g4 g5
    have heq : (s.TallyDecr k).2.2 = s2 := by
      cases e2 <;> simp [KV.TallyDecr, hTe, hps]
    rw [heq]
    exact ⟨g1.trans f1, g2.trans f2, g3.trans f3, g4.trans f4, g5⟩

theorem runWOp_facts (s : KV) (h : s.WF) (hin : s.inTransaction = true)
    (op : WOp) : opFacts s (runWOp s op) := by
  cases op with
  | wset k v => exact Set_facts s h k v
  | wsetMime k m => exact SetMime_facts s h k m
  | wdel k => exact Del_facts s h hin k
  | wtally k off => exact Tally_facts s h k off
  | wtallyIncr k => exact TallyIncr_facts s h k
  | wtallyDecr k => exact TallyDecr_facts s h k
  | wtallyReset k => exact TallyReset_facts s h k

theorem foldl_runWOp_facts (ops : List WOp) : ∀ s : KV, s.WF →
    s.inTransaction = true → opFacts s (ops.foldl runWOp s) := by
  induction ops with
  | nil =>
    intro s h _
    exact ⟨rfl, rfl, rfl, rfl, h⟩
  | cons op ops ih =>
    intro s h hin
    obtain ⟨f1, f2, f3, f4, f5⟩ := runWOp_facts s h hin op
    have hin1 : (runWOp s op).inTransaction = true := by rw [f2]; exact hin
    obtain ⟨g1, g2, g3, g4, g5⟩ := ih (runWOp s op) f5 hin1
    exact ⟨g1.trans f1, g2.trans f2, g3.trans f3, g4.trans f4, g5⟩

/-- C3 counterexample: a `Set` issued between `Begin` and `Commit` is not
visible after the commit — it already fails inside the transaction on the
malformed upsert statement (argument-count error) and writes nothing, so
`Get` after the commit still returns the empty value rather than the value
set. -/
theorem c3_counterexample :
    ((kvFresh.Begin).2.Set "k" "v").1 = some GoErr.errArgCountMismatch ∧
    (((((kvFresh.Begin).2.Set "k" "v").2.Commit).2.Get "k").1 = "" ∧
      ("" : String) ≠ "v") := by
  decide

/-- C3 (amended): starting from an open, non-transactional, non-auto-closing
handle, `Begin` succeeds; every operation issued between `Begin` and the
closing call executes against the transaction (the durable table is
untouched while the transaction is active); after `Rollback` none of the
transaction's changes is visible (every `Get` returns what it returned
before `Begin`); and `Commit` publishes exactly the transaction's view, so
every `Get` after the commit returns what it returned inside the transaction
just before it — though the upsert-based writes (`Set`, `SetMime` and the
tally updates) always fail on the malformed upsert statement, so only
deletions ever actually become visible this way. -/
theorem c3_transaction_scope (s : KV) (ops : List WOp)
    (hin : s.inTransaction = false) (hdb : s.dbOpen = true)
    (hac : s.autoClose = false) :
    (s.Begin).1 = none ∧
    (List.foldl runWOp (s.Begin).2 ops).committed = s.committed ∧
    ((List.foldl runWOp (s.Begin).2 ops).Rollback).1 = none ∧
    (∀ k, (((List.foldl runWOp (s.Begin).2 ops).Rollback).2.Get k).1 =
      (s.Get k).1) ∧
    ((List.foldl runWOp (s.Begin).2 ops).Commit).1 = none ∧
    (∀ k, (((List.foldl runWOp (s.Begin).2 ops).Commit).2.Get k).1 =
      ((List.foldl runWOp (s.Begin).2 ops).Get k).1) := by
  have hBegin : s.Begin =
      (none, { s with tx := some { view := s.committed, done := false },
                      inTransaction := true }) := by
    simp [KV.Begin, hdb]
  have hB2 : (s.Begin).2 =
      { s with tx := some { view := s.committed, done := false },
               inTransaction := true } := by
    rw [hBegin]
  have hWF1 : ({ s with
                   tx := some { view := s.committed, done := false },
                   inTransaction := true } : KV).WF := by
    intro _
    exact ⟨hdb, hac, s.committed, rfl⟩
  refine ⟨by rw [hBegin], ?_⟩
  rw [hB2]
  generalize hg : List.foldl runWOp
    { s with tx := some { view := s.committed, done := false },
             inTransaction := true } ops = s2
  have hmain := foldl_runWOp_facts ops
    { s with tx := some { view := s.committed, done := false },
             inTransaction := true } hWF1 rfl
  rw [hg] at hmain
  obtain ⟨f1, f2, f3, f4, f5⟩ := hmain
  have f1' : s2.committed = s.committed := f1
  have f2' : s2.inTransaction = true := f2
  have f4' : normB s2.currBuckt = normB s.currBuckt := f4
  obtain ⟨hdb2, hac2, w, htx2⟩ := f5 f2'
  have hRoll : s2.Rollback =
      (none, { s2 with tx := some { view := w, done := true },
                       inTransaction := false }) := by
    simp [KV.Rollback, htx2]
  have hCom : s2.Commit =
      (none, { s2 with committed := w,
                       tx := some { view := w, done := true },
                       inTransaction := false }) := by
    simp [KV.Commit, htx2]
  refine ⟨f1', by rw [hRoll], ?_, by rw [hCom], ?_⟩
  · intro k
    rw [hRoll]
    show (({ s2 with
               tx := some { view := w, done := true },
               inTransaction := false } : KV).Get k).1 = (s.Get k).1
    rw [(Get_val _ (WF_of_not_inTx _ rfl) k).1,
      (Get_val s (WF_of_not_inTx s hin) k).1]
    have hR1 : ({ s2 with
                    tx := some { view := w, done := true },
                    inTransaction := false } : KV).effTbl = s.committed := f1'
    have hR2 : normB ({ s2 with
                          tx := some { view := w, done := true },
                          inTransaction := false } : KV).currBuckt =
        normB s.currBuckt := f4'
    rw [hR1, hR2, effTbl_not_inTx s hin]
  · intro k
    rw [hCom]
    show (({ s2 with
               committed := w,
               tx := some { view := w, done := true },
               inTransaction := false } : KV).Get k).1 = (s2.Get k).1
    rw [(Get_val _ (WF_of_not_inTx _ rfl) k).1, (Get_val s2 f5 k).1]
    have hC1 : ({ s2 with
                    committed := w,
                    tx := some { view := w, done := true },
                    inTransaction := false } : KV).effTbl = w := rfl
    have hC2 : normB ({ s2 with
                          committed := w,
                          tx := some { view := w, done := true },
                          inTransaction := false } : KV).currBuckt =
        normB s2.currBuckt := rfl
    have hs2e : s2.effTbl = w := by
      simp [KV.effTbl, f2', htx2]
    rw [hC1, hC2, hs2e]

/-- C3 witness: the transaction-scope theorem applied to a fresh open handle
and a concrete batch of writes (a `Set` and a `TallyIncr`). -/
theorem c3_transaction_scope_witness :
    (kvFresh.Begin).1 = none ∧
    (List.foldl runWOp (kvFresh.Begin).2
      [WOp.wset "k" "v", WOp.wtallyIncr "t"]).committed = kvFresh.committed ∧
    ((List.foldl runWOp (kvFresh.Begin).2
      [WOp.wset "k" "v", WOp.wtallyIncr "t"]).Rollback).1 = none ∧
    (∀ k, (((List.foldl runWOp (kvFresh.Begin).2
      [WOp.wset "k" "v", WOp.wtallyIncr "t"]).Rollback).2.Get k).1 =
      (kvFresh.Get k).1) ∧
    ((List.foldl runWOp (kvFresh.Begin).2
      [WOp.wset "k" "v", WOp.wtallyIncr "t"]).Commit).1 = none ∧
    (∀ k, (((List.foldl runWOp (kvFresh.Begin).2
      [WOp.wset "k" "v", WOp.wtallyIncr "t"]).Commit).2.Get k).1 =
      ((List.foldl runWOp (kvFresh.Begin).2
        [WOp.wset "k" "v", WOp.wtallyIncr "t"]).Get k).1) :=
  c3_transaction_scope kvFresh [WOp.wset "k" "v", WOp.wtallyIncr "t"]
    (by decide) (by decide) (by decide)
